import Mathlib

/-!
Verification of the slap-cli packaging tool core against its source.

Shallow embedding of:
* `src/shut/commands/pkg/install.py` (`collect_installable_requirements`),
* `src/shut/commands/pkg/update.py` (`update_package`, the `update` CLI command),
* `src/pliz/commands/render.py` (`_get_package_consistency_checks`,
  `RenderCommand.execute`),
* `src/shut/model/package.py` (`_get_file_in_directory`,
  `PythonPackageMetadata.filename`, `PythonPackageMetadata.package_directory`,
  `PythonPackageMetadata._load_metadata`, `PackageModel.get_readme`,
  `PackageModel.get_license`).

Python exceptions are modelled as a pair of the exception class name and its
message/argument; the filesystem is modelled as an association list from path
to content (for file-existence checks, a plain list of existing paths).
-/

/-- A raised Python exception: class name plus message or argument. -/
structure PyExc where
  excName : String
  message : String
deriving DecidableEq

/-- Vendored requirement kind (`VendoredRequirement.Type` in
`shut/model/requirements.py`, which is not part of the source sample).
Modelled from the spec: a `VendoredRequirement` is "a Requirement variant
tagged with `Type ∈ {Path, Git, …}` plus a location string". -/
inductive VendKind where
  | path
  | git
deriving DecidableEq

/-- A requirement entry. Modelled from the spec: `shut/model/requirements.py`
is not part of the source sample; a `Requirement` is a registry dependency
with a name and version selector (kept as its display string), and a
`VendoredRequirement` carries a kind and a location string. This is all that
`collect_installable_requirements` consults. -/
inductive Req where
  | registry (name : String) (selectorStr : String)
  | vendored (kind : VendKind) (location : String)
deriving DecidableEq

/-- Whether a requirement entry is a vendored (path/VCS) one. -/
def Req.isVendored : Req → Bool
  | .vendored _ _ => true
  | .registry _ _ => false

/-- The method `RequirementsList.vendored_reqs`. Modelled from the spec:
"filters to only path/VCS-vendored entries, preserving order". -/
def vendored_reqs (reqs : List Req) : List Req :=
  reqs.filter Req.isVendored

/-- The slice of a `PackageModel` consulted by the resolver: name, declared
version (kept abstract as its string form, since `shut/model/version.py` is
not part of the source sample), directory, and requirement lists. -/
structure PkgInfo where
  name : String
  version : String
  directory : String
  requirements : List Req
  test_requirements : List Req
deriving DecidableEq

/-- An inter-dependency reference as consumed by the resolver loop
(`monorepo.get_inter_dependencies_for` is not part of the source sample;
modelled from the spec: "every dependency reference recorded against
`package` that names another package in the monorepo").  The version
selector is kept abstract as its display string together with its `matches`
predicate over version strings, which is all the resolver consults. -/
structure InterDepRef where
  package_name : String
  selectorStr : String
  selMatches : String → Bool

/-- The name-to-package index `{p.name: p for p in project.packages}`.
A Python dict comprehension keeps the last binding for a duplicated key,
hence the lookup over the reversed list. -/
def lookupPkg (pkgs : List PkgInfo) (name : String) : Option PkgInfo :=
  pkgs.reverse.find? (fun p => p.name == name)

/-- The warning printed by `collect_installable_requirements` when a sibling
version does not match the selector (install.py lines 56-58). -/
def skipNote (depName selStr depVersion : String) : String :=
  "note: skipping inter-dependency on package \"" ++ depName ++
  "\" because the version selector " ++ selStr ++
  " does not match the present version " ++ depVersion

/-- The requirement list built by `collect_installable_requirements` before
the inter-dependency loop runs (install.py lines 39-47): test requirements
when the `test` extra is requested, then the package's own path, then the
package's vendored requirements. -/
def baseReqs (pkg : PkgInfo) (extra : List String) : List Req :=
  (if extra.contains "test" then pkg.test_requirements else []) ++
  (Req.vendored .path pkg.directory :: vendored_reqs pkg.requirements)

/-- The inter-dependency loop of `collect_installable_requirements`
(install.py lines 53-60): each reference is looked up in the index (a plain
dict subscript, raising `KeyError` on a missing name); a non-matching sibling
is skipped with a printed note; a matching sibling's path requirement is
inserted at index 0 of the running requirement list. -/
def interDepLoop (pkgs : List PkgInfo) :
    List InterDepRef → List Req → List String → Except PyExc (List Req × List String)
  | [], reqs, warns => .ok (reqs, warns)
  | r :: rest, reqs, warns =>
    match lookupPkg pkgs r.package_name with
    | none => .error ⟨"KeyError", r.package_name⟩
    | some dep =>
      if r.selMatches dep.version then
        interDepLoop pkgs rest (Req.vendored .path dep.directory :: reqs) warns
      else
        interDepLoop pkgs rest reqs
          (warns ++ [skipNote dep.name r.selectorStr dep.version])

/-- The function `collect_installable_requirements` (install.py lines 38-62).  The
`monorepo` flag models `project.monorepo` being set and `inter_deps` the
`--inter-deps` option; warnings printed to stderr are returned alongside the
requirement list. -/
def collect_installable_requirements (pkg : PkgInfo) (pkgs : List PkgInfo)
    (refs : List InterDepRef) (monorepo inter_deps : Bool)
    (extra : List String) : Except PyExc (List Req × List String) :=
  if monorepo && inter_deps then
    interDepLoop pkgs refs (baseReqs pkg extra) []
  else
    .ok (baseReqs pkg extra, [])

/-- The siblings accepted by the loop, in reference order: those whose
referenced package exists in the index and whose declared version matches the
selector. -/
def matchingDeps (pkgs : List PkgInfo) (refs : List InterDepRef) : List PkgInfo :=
  refs.filterMap (fun r =>
    match lookupPkg pkgs r.package_name with
    | some dep => if r.selMatches dep.version then some dep else none
    | none => none)

/-- The notes emitted by the loop, in reference order: one per reference whose
package exists but whose version does not match. -/
def skipNotes (pkgs : List PkgInfo) (refs : List InterDepRef) : List String :=
  refs.filterMap (fun r =>
    match lookupPkg pkgs r.package_name with
    | some dep =>
      if r.selMatches dep.version then none
      else some (skipNote dep.name r.selectorStr dep.version)
    | none => none)

/-- The name of the first reference whose package is absent from the index,
if any: the dict subscript fails there. -/
def firstMissing (pkgs : List PkgInfo) : List InterDepRef → Option String
  | [] => none
  | r :: rest =>
    match lookupPkg pkgs r.package_name with
    | none => some r.package_name
    | some _ => firstMissing pkgs rest

/-! ## File generation and writing (update/render) -/

/-- A file to render: target name (path) and already-rendered content.
The rendering callback of `FileToRender` is pure, so it is kept applied. -/
structure FileToRender where
  name : String
  content : String
deriving DecidableEq

/-- The filesystem as an association list from path to content. -/
def FS := List (String × String)
deriving DecidableEq

/-- Store `content` at `path`, replacing an existing entry. -/
def FS.set : FS → String → String → FS
  | [], p, c => [(p, c)]
  | (q, d) :: rest, p, c =>
    if q = p then (p, c) :: rest else (q, d) :: FS.set rest p c

/-- Content stored at `path`, if any. -/
def FS.get : FS → String → Option String
  | [], _ => none
  | (q, d) :: rest, p => if q = p then some d else FS.get rest p

/-- Outcome of one write step. -/
inductive WriteOutcome where
  | dryDescription (path : String)
  | written (path : String)
  | conflict (path : String)
deriving DecidableEq

/-- Python `str.startswith`, computed on the character list. -/
def strStartsWith (s pre : String) : Bool :=
  List.isPrefixOf pre.data s.data

/-- Whether a string ends with the given suffix, computed on the character
list. -/
def strEndsWith (s suf : String) : Bool :=
  List.isSuffixOf suf.data s.data

/-- Python `os.path.join` restricted to two components (posixpath): an
absolute second component wins; otherwise the parts are joined with a single
separator unless the first is empty or already ends with one. -/
def pathJoin (a b : String) : String :=
  if strStartsWith b "/" then b
  else if a = "" || strEndsWith a "/" then a ++ b
  else a ++ "/" ++ b

/-- One write of the file engine.  Modelled from the spec:
`shut/commands/commons/new.py` (`write_files`) and
`shore/core/plugins.py` (`write_to_disk`) are not part of the source sample;
"if `dry`, produce only a description of the write (path) and perform no
I/O. If not dry and the target exists and differs from the rendered content
and `force` is false, the write is skipped and reported as a conflict … If
`force` is true, the target is replaced unconditionally." -/
def write_file (force dry : Bool) (fs : FS) (target content : String) :
    FS × WriteOutcome :=
  if dry then (fs, .dryDescription target)
  else
    match fs.get target with
    | some existing =>
      if existing ≠ content && !force then (fs, .conflict target)
      else (fs.set target content, .written target)
    | none => (fs.set target content, .written target)

/-- The writer `write_files(files, directory, force, dry)`. Modelled from the spec:
the function is not part of the source sample; it commits each rendered file
(resolved under `directory`) with `write_file` in order. -/
def write_files (directory : String) (force dry : Bool) :
    List FileToRender → FS → FS × List WriteOutcome
  | [], fs => (fs, [])
  | f :: rest, fs =>
    let r := write_file force dry fs (pathJoin directory f.name) f.content
    let s := write_files directory force dry rest r.1
    (s.1, r.2 :: s.2)

/-- The function `update_package` (update.py lines 31-33): renders the package's files
(`get_files` is not part of the source sample, so the rendered file set is a
parameter) and writes them with `force=True` and the given `dry` flag. -/
def update_package (files : List FileToRender) (directory : String)
    (dry : Bool) (fs : FS) : FS × List WriteOutcome :=
  write_files directory true dry files fs

/-- The `shut pkg update` CLI command (update.py lines 36-44): despite
declaring a `--dry` option, line 44 invokes `update_package(package)` without
forwarding it, so `dry` always defaults to `False`. -/
def update_cli_command (files : List FileToRender) (directory : String)
    (dry : Bool) (fs : FS) : FS × List WriteOutcome :=
  update_package files directory false fs

/-- The function `write_to_disk`. Modelled from the spec: `pliz/core/plugins.py` is not
part of the source sample; writing a rendered file commits its content at its
target path. -/
def write_to_disk (fs : FS) (f : FileToRender) : FS :=
  fs.set f.name f.content

/-- The per-file loop of `RenderCommand.execute` (render.py lines 123-126):
print the file's name and, only when `--dry` is not set, call
`write_to_disk`. -/
def renderLoop (dry : Bool) : List FileToRender → FS → FS × List String
  | [], fs => (fs, [])
  | f :: rest, fs =>
    let fs' := if dry then fs else write_to_disk fs f
    let s := renderLoop dry rest fs'
    (s.1, f.name :: s.2)

/-- The method `RenderCommand.execute`, lines 121-126 of render.py: prints the file
count, then for each rendered file prints its name and, only when `--dry` is
not set, calls `write_to_disk`.  Returns the final filesystem and the
printed lines. -/
def render_execute (dry : Bool) (files : List FileToRender) (fs : FS) :
    FS × List String :=
  let s := renderLoop dry files fs
  (s.1, ("Rendering " ++ toString files.length ++ " file(s)") :: s.2)

/-- Example rendered file set and filesystem used to exhibit the dropped
`--dry` flag of the `update` CLI command. -/
def exampleFiles : List FileToRender := [⟨"setup.py", "# generated"⟩]

/-- Example starting filesystem: the target directory is empty. -/
def exampleFS : FS := []

/-! ## Basic lemmas about the write engine -/

theorem write_file_dry_fst (force : Bool) (fs : FS) (target content : String) :
    (write_file force true fs target content).1 = fs := by
  simp [write_file]

theorem write_files_dry_fst (directory : String) (force : Bool)
    (files : List FileToRender) (fs : FS) :
    (write_files directory force true files fs).1 = fs := by
  induction files generalizing fs with
  | nil => simp [write_files]
  | cons f rest ih => simp [write_files, write_file, ih]

theorem renderLoop_dry_fst (files : List FileToRender) (fs : FS) :
    (renderLoop true files fs).1 = fs := by
  induction files generalizing fs with
  | nil => simp [renderLoop]
  | cons f rest ih => simp [renderLoop, ih]

/-- C1: For every package model and every rendered file set, invoking the
update operation with `dry=true` performs no filesystem writes — the claim
holds of `update_package` itself and of `RenderCommand.execute`, both of
which leave the filesystem untouched under `dry`, but the `shut pkg update`
CLI command declares `--dry` and then drops it (update.py line 44 calls
`update_package(package)` without forwarding `dry`), so invoking the update
operation through the CLI with `dry=true` does write to the filesystem. -/
theorem c1_dry_run_update :
    (∀ (files : List FileToRender) (directory : String) (fs : FS),
      (update_package files directory true fs).1 = fs) ∧
    (∀ (files : List FileToRender) (fs : FS),
      (render_execute true files fs).1 = fs) ∧
    (update_cli_command exampleFiles "pkg" true exampleFS).1 ≠ exampleFS := by
  refine ⟨?_, ?_, ?_⟩
  · intro files directory fs
    exact write_files_dry_fst directory true files fs
  · intro files fs
    simp [render_execute, renderLoop_dry_fst]
  · decide

/-! ## Resolver lemmas (C2-C4) -/

theorem firstMissing_mem (pkgs : List PkgInfo) (refs : List InterDepRef)
    (name : String) (h : firstMissing pkgs refs = some name) :
    ∃ r ∈ refs, r.package_name = name ∧ lookupPkg pkgs name = none := by
  induction refs with
  | nil => simp [firstMissing] at h
  | cons r rest ih =>
    rw [firstMissing] at h
    cases hlook : lookupPkg pkgs r.package_name with
    | none =>
      rw [hlook] at h
      simp only [Option.some.injEq] at h
      exact ⟨r, List.mem_cons_self r rest, h, h ▸ hlook⟩
    | some dep =>
      rw [hlook] at h
      obtain ⟨s, hs, hn, hl⟩ := ih h
      exact ⟨s, List.mem_cons_of_mem r hs, hn, hl⟩

theorem interDepLoop_missing (pkgs : List PkgInfo) (refs : List InterDepRef)
    (name : String) (h : firstMissing pkgs refs = some name) :
    ∀ (reqs : List Req) (warns : List String),
      interDepLoop pkgs refs reqs warns = .error ⟨"KeyError", name⟩ := by
  induction refs with
  | nil => simp [firstMissing] at h
  | cons r rest ih =>
    intro reqs warns
    rw [firstMissing] at h
    rw [interDepLoop]
    cases hlook : lookupPkg pkgs r.package_name with
    | none =>
      rw [hlook] at h
      simp only [Option.some.injEq] at h
      simp [h]
    | some dep =>
      rw [hlook] at h
      by_cases hm : r.selMatches dep.version <;> simp [hm, ih h]

theorem interDepLoop_all_present (pkgs : List PkgInfo) (refs : List InterDepRef)
    (hall : ∀ r ∈ refs, (lookupPkg pkgs r.package_name).isSome = true) :
    ∀ (reqs : List Req) (warns : List String),
      interDepLoop pkgs refs reqs warns =
        .ok (((matchingDeps pkgs refs).map
                (fun d => Req.vendored .path d.directory)).reverse ++ reqs,
             warns ++ skipNotes pkgs refs) := by
  induction refs with
  | nil => intro reqs warns; simp [interDepLoop, matchingDeps, skipNotes]
  | cons r rest ih =>
    intro reqs warns
    have hr := hall r (List.mem_cons_self r rest)
    have hrest : ∀ s ∈ rest, (lookupPkg pkgs s.package_name).isSome = true :=
      fun s hs => hall s (List.mem_cons_of_mem r hs)
    rw [interDepLoop]
    simp only [matchingDeps, skipNotes, List.filterMap_cons]
    cases hlook : lookupPkg pkgs r.package_name with
    | none => rw [hlook] at hr; simp at hr
    | some dep =>
      cases hm : r.selMatches dep.version with
      | true =>
        simp [hm, ih hrest, matchingDeps, skipNotes, List.append_assoc]
      | false =>
        simp [hm, ih hrest, matchingDeps, skipNotes, List.append_assoc]

/-- Concrete consumer package used in witnesses. -/
def pkgA : PkgInfo :=
  ⟨"a-lib", "1.0.0", "packages/a-lib", [Req.registry "requests" ">=2.0"], []⟩

/-- Concrete sibling whose version satisfies `^1.0`. -/
def pkgB : PkgInfo := ⟨"b-lib", "1.2.0", "packages/b-lib", [], []⟩

/-- Concrete sibling whose version violates `^1.0`. -/
def pkgB2 : PkgInfo := ⟨"b-lib", "2.0.0", "packages/b-lib", [], []⟩

/-- A reference to `b-lib` under selector `^1.0` (matching exactly the
versions of the 1.x series that occur in the examples). -/
def refB : InterDepRef :=
  ⟨"b-lib", "^1.0", fun v => v == "1.0.0" || v == "1.1.0" || v == "1.2.0"⟩

/-- A reference to a package that is not part of the monorepo. -/
def refMissing : InterDepRef := ⟨"c-lib", "^1.0", fun _ => true⟩

/-- C2 counterexample: a dependency reference naming a package absent from
the index makes `collect_installable_requirements` fail with a `KeyError`
(the bare dict subscript of install.py line 54), not with an
`UnknownSiblingError`: no such class exists in the code. -/
theorem c2_unknown_sibling_counterexample :
    collect_installable_requirements pkgA [pkgA, pkgB] [refMissing] true true []
      = .error ⟨"KeyError", "c-lib"⟩ ∧
    ("KeyError" : String) ≠ "UnknownSiblingError" := by
  exact ⟨rfl, by decide⟩

/-- C2 (amended): for every monorepo and package, if some dependency
reference names a package absent from the name-to-package index, resolution
fails with an uncaught `KeyError` carrying the offending package name (the
first absent reference), rather than skipping it silently. -/
theorem c2_missing_sibling_keyerror (pkg : PkgInfo) (pkgs : List PkgInfo)
    (refs : List InterDepRef) (extra : List String) (name : String)
    (h : firstMissing pkgs refs = some name) :
    (∃ r ∈ refs, r.package_name = name ∧ lookupPkg pkgs name = none) ∧
    collect_installable_requirements pkg pkgs refs true true extra =
      .error ⟨"KeyError", name⟩ := by
  refine ⟨firstMissing_mem pkgs refs name h, ?_⟩
  simp only [collect_installable_requirements, Bool.and_self, if_true]
  exact interDepLoop_missing pkgs refs name h _ _

theorem c2_missing_sibling_keyerror_witness :
    collect_installable_requirements pkgA [pkgA, pkgB] [refMissing] true true []
      = .error ⟨"KeyError", "c-lib"⟩ :=
  (c2_missing_sibling_keyerror pkgA [pkgA, pkgB] [refMissing] [] "c-lib"
    (by decide)).2

/-- C3: in a monorepo where every inter-dependency reference resolves, a
sibling `dep` referenced by `r` whose declared version matches `r`'s version
selector appears in the result as a path-vendored requirement placed before
every requirement of the consumer's own list (`baseReqs`: test requirements,
the consumer's own path, its vendored requirements). -/
theorem c3_matching_sibling_front (pkg : PkgInfo) (pkgs : List PkgInfo)
    (refs : List InterDepRef) (extra : List String) (r : InterDepRef)
    (dep : PkgInfo)
    (hall : ∀ s ∈ refs, (lookupPkg pkgs s.package_name).isSome = true)
    (hr : r ∈ refs) (hdep : lookupPkg pkgs r.package_name = some dep)
    (hmatch : r.selMatches dep.version = true) :
    ∃ l₁ l₂, collect_installable_requirements pkg pkgs refs true true extra =
      .ok (l₁ ++ Req.vendored .path dep.directory :: (l₂ ++ baseReqs pkg extra),
           skipNotes pkgs refs) := by
  have hmem : dep ∈ matchingDeps pkgs refs := by
    apply List.mem_filterMap.mpr
    exact ⟨r, hr, by rw [hdep]; simp [hmatch]⟩
  have hvmem : Req.vendored .path dep.directory ∈
      ((matchingDeps pkgs refs).map
        (fun d => Req.vendored .path d.directory)).reverse := by
    rw [List.mem_reverse]
    exact List.mem_map_of_mem _ hmem
  obtain ⟨l₁, l₂, hsplit⟩ := List.append_of_mem hvmem
  refine ⟨l₁, l₂, ?_⟩
  simp only [collect_installable_requirements, Bool.and_self, if_true]
  rw [interDepLoop_all_present pkgs refs hall (baseReqs pkg extra) [], hsplit]
  simp [List.append_assoc]

theorem c3_matching_sibling_front_witness :
    ∃ l₁ l₂,
      collect_installable_requirements pkgA [pkgA, pkgB] [refB] true true [] =
        .ok (l₁ ++ Req.vendored .path pkgB.directory ::
               (l₂ ++ baseReqs pkgA []),
             skipNotes [pkgA, pkgB] [refB]) :=
  c3_matching_sibling_front pkgA [pkgA, pkgB] [refB] [] refB pkgB
    (by decide) (List.mem_cons_self refB []) (by decide) (by decide)

/-- C4: a single inter-dependency reference `r` resolving to sibling `dep`
whose declared version does not match the selector is excluded from the
result, the operation still succeeds, and exactly one warning is emitted,
containing the literal selector text and the sibling's declared version. -/
theorem c4_nonmatching_sibling_excluded (pkg : PkgInfo) (pkgs : List PkgInfo)
    (extra : List String) (r : InterDepRef) (dep : PkgInfo)
    (hdep : lookupPkg pkgs r.package_name = some dep)
    (hno : r.selMatches dep.version = false)
    (hnotin : Req.vendored .path dep.directory ∉ baseReqs pkg extra) :
    collect_installable_requirements pkg pkgs [r] true true extra =
      .ok (baseReqs pkg extra,
           [skipNote dep.name r.selectorStr dep.version]) ∧
    (∀ out,
      collect_installable_requirements pkg pkgs [r] true true extra = .ok out →
      Req.vendored .path dep.directory ∉ out.1) ∧
    (∃ s₁ s₂ s₃ s₄,
      skipNote dep.name r.selectorStr dep.version =
        s₁ ++ dep.name ++ s₂ ++ r.selectorStr ++ s₃ ++ dep.version ++ s₄) := by
  have hrun : collect_installable_requirements pkg pkgs [r] true true extra =
      .ok (baseReqs pkg extra,
           [skipNote dep.name r.selectorStr dep.version]) := by
    simp [collect_installable_requirements, interDepLoop, hdep, hno]
  refine ⟨hrun, ?_, ?_⟩
  · intro out hout
    rw [hrun] at hout
    simp only [Except.ok.injEq] at hout
    rw [← hout]
    exact hnotin
  · refine ⟨"note: skipping inter-dependency on package \"",
      "\" because the version selector ",
      " does not match the present version ", "", ?_⟩
    simp [skipNote]

theorem c4_nonmatching_sibling_excluded_witness :
    collect_installable_requirements pkgA [pkgA, pkgB2] [refB] true true [] =
      .ok (baseReqs pkgA [], [skipNote "b-lib" "^1.0" "2.0.0"]) :=
  (c4_nonmatching_sibling_excluded pkgA [pkgA, pkgB2] [] refB pkgB2
    (by decide) (by decide) (by decide)).1

/-! ## String helpers -/

theorem str_data_append (a b : String) : (a ++ b).data = a.data ++ b.data := by
  cases a
  cases b
  rfl

theorem str_ext {a b : String} (h : a.data = b.data) : a = b := by
  cases a
  cases b
  exact congrArg String.mk h

/-! ## Consistency checks (`_get_package_consistency_checks`, render.py) -/

/-- Python `repr` (`{!r}` formatting) of an optional string value: `None`
for a missing value, the text in single quotes otherwise (quote escaping
inside the value is not modelled; the warnings are only ever inspected for
containment of the plain value). -/
def pyRepr : Option String → String
  | none => "None"
  | some s => "\x27" ++ s ++ "\x27"

/-- The author warning of `_get_package_consistency_checks` (render.py
lines 43-45). -/
def author_mismatch_warning (extracted : Option String) (declared : String) :
    String :=
  "Inconsistent package author (" ++ pyRepr extracted ++ " != " ++
  pyRepr (some declared) ++ ")"

/-- The version warning of `_get_package_consistency_checks` (render.py
lines 46-48). -/
def version_mismatch_warning (extracted declared : Option String) : String :=
  "Inconsistent package version (" ++ pyRepr extracted ++ " != " ++
  pyRepr declared ++ ")"

/-- The generator `_get_package_consistency_checks` (render.py lines 41-48): compares the
entry-file author against the stringified declared author and the entry-file
version against the declared version, yielding one warning per mismatch. -/
def package_consistency_checks (extractedAuthor : Option String)
    (declaredAuthor : String) (extractedVersion declaredVersion : Option String) :
    List String :=
  (if extractedAuthor ≠ some declaredAuthor
   then [author_mismatch_warning extractedAuthor declaredAuthor] else []) ++
  (if extractedVersion ≠ declaredVersion
   then [version_mismatch_warning extractedVersion declaredVersion] else [])

/-- C5: the consistency check emits a version-mismatch warning exactly when
the declared version differs from the version extracted from source — when
they differ, the check list is the author warnings followed by exactly one
version warning, and that warning contains both literal version strings;
when they are equal, no version warning is emitted. -/
theorem c5_version_mismatch_warning (ea : Option String) (da : String)
    (ev dv : Option String) :
    (ev ≠ dv →
      package_consistency_checks ea da ev dv =
        (if ea ≠ some da then [author_mismatch_warning ea da] else []) ++
        [version_mismatch_warning ev dv] ∧
      (∀ v w, ev = some v → dv = some w →
        ∃ s₁ s₂ s₃, version_mismatch_warning ev dv =
          s₁ ++ v ++ s₂ ++ w ++ s₃)) ∧
    (ev = dv →
      package_consistency_checks ea da ev dv =
        (if ea ≠ some da then [author_mismatch_warning ea da] else [])) := by
  constructor
  · intro hne
    constructor
    · simp [package_consistency_checks, hne]
    · intro v w hv hw
      subst hv
      subst hw
      refine ⟨"Inconsistent package version (" ++ "\x27",
        "\x27" ++ " != " ++ "\x27", "\x27" ++ ")", ?_⟩
      apply str_ext
      simp [version_mismatch_warning, pyRepr, str_data_append, List.append_assoc]
  · intro heq
    simp [package_consistency_checks, heq]

theorem c5_version_mismatch_warning_witness :
    package_consistency_checks (some "Alice") "Alice"
        (some "1.0.1") (some "1.0.0") =
      [version_mismatch_warning (some "1.0.1") (some "1.0.0")] ∧
    ∃ s₁ s₂ s₃, version_mismatch_warning (some "1.0.1") (some "1.0.0") =
      s₁ ++ "1.0.1" ++ s₂ ++ "1.0.0" ++ s₃ := by
  have h := (c5_version_mismatch_warning (some "Alice") "Alice"
    (some "1.0.1") (some "1.0.0")).1 (by decide)
  constructor
  · rw [h.1]
    simp
  · exact h.2 "1.0.1" "1.0.0" rfl rfl

/-! ## Source metadata extraction (`_load_metadata`, package.py) -/

/-- A top-level assignment's right-hand side.  Modelled from the spec:
`shore.util.ast.load_module_members` and Python's `ast` module are outside
the source sample; an expression is a literal (string, number) or some
non-literal expression kept as its source text. -/
inductive PyExpr where
  | strLit (s : String)
  | numLit (n : Int)
  | nonLiteral (src : String)
deriving DecidableEq

/-- A Python value produced by evaluating a literal. -/
inductive PyValue where
  | str (s : String)
  | num (n : Int)
deriving DecidableEq

/-- Whether an expression is a literal. -/
def PyExpr.isLiteral : PyExpr → Bool
  | .strLit _ => true
  | .numLit _ => true
  | .nonLiteral _ => false

/-- Python `ast.literal_eval`: evaluates literals and raises `ValueError` on any
non-literal node — it never executes the expression. -/
def literal_eval : PyExpr → Except PyExc PyValue
  | .strLit s => .ok (.str s)
  | .numLit n => .ok (.num n)
  | .nonLiteral _ => .error ⟨"ValueError", "malformed node or string"⟩

/-- Dictionary lookup over the module members returned by
`load_module_members` (a Python dict keeps the last binding of a key). -/
def lookupMember (members : List (String × PyExpr)) (key : String) :
    Option PyExpr :=
  (members.reverse.find? (fun m => m.1 == key)).map (fun m => m.2)

/-- The method `PythonPackageMetadata._load_metadata` (package.py lines 203-222):
for each of `__version__` and `__author__` present among the module's
top-level assignments, `ast.literal_eval` the right-hand side, replacing a
`ValueError` (non-literal expression) by the sentinel string; returns the
pair (author, version). -/
def load_metadata (members : List (String × PyExpr)) :
    Option PyValue × Option PyValue :=
  let version :=
    match lookupMember members "__version__" with
    | none => none
    | some e =>
      match literal_eval e with
      | .ok v => some v
      | .error _ => some (.str "<Non-literal expression>")
  let author :=
    match lookupMember members "__author__" with
    | none => none
    | some e =>
      match literal_eval e with
      | .ok v => some v
      | .error _ => some (.str "<Non-literal expression>")
  (author, version)

/-- C7: metadata extraction evaluates only literal right-hand sides — a
non-literal `__version__`/`__author__` assignment yields the sentinel
`<Non-literal expression>` instead of being executed, while a literal
assignment yields exactly the literal's value; extraction is a total
function (it raises no error: the `ValueError` of `literal_eval` is the
only failure and it is caught). -/
theorem c7_literal_extraction (members : List (String × PyExpr)) :
    (∀ e, lookupMember members "__version__" = some e → e.isLiteral = false →
      (load_metadata members).2 = some (PyValue.str "<Non-literal expression>")) ∧
    (∀ e, lookupMember members "__author__" = some e → e.isLiteral = false →
      (load_metadata members).1 = some (PyValue.str "<Non-literal expression>")) ∧
    (∀ e v, lookupMember members "__version__" = some e →
      literal_eval e = .ok v → (load_metadata members).2 = some v) ∧
    (∀ e v, lookupMember members "__author__" = some e →
      literal_eval e = .ok v → (load_metadata members).1 = some v) := by
  refine ⟨?_, ?_, ?_, ?_⟩
  · intro e he hl
    cases e with
    | strLit s => simp [PyExpr.isLiteral] at hl
    | numLit n => simp [PyExpr.isLiteral] at hl
    | nonLiteral d => simp [load_metadata, he, literal_eval]
  · intro e he hl
    cases e with
    | strLit s => simp [PyExpr.isLiteral] at hl
    | numLit n => simp [PyExpr.isLiteral] at hl
    | nonLiteral d => simp [load_metadata, he, literal_eval]
  · intro e v he hv
    simp [load_metadata, he, hv]
  · intro e v he hv
    simp [load_metadata, he, hv]

theorem c7_literal_extraction_witness :
    (load_metadata [("__version__", PyExpr.nonLiteral "get_version()"),
                    ("__author__", PyExpr.strLit "Jane Doe")]).2 =
      some (PyValue.str "<Non-literal expression>") :=
  (c7_literal_extraction
      [("__version__", PyExpr.nonLiteral "get_version()"),
       ("__author__", PyExpr.strLit "Jane Doe")]).1
    (PyExpr.nonLiteral "get_version()") (by decide) (by decide)

/-! ## Entry-file lookup (`PythonPackageMetadata.filename`, package.py) -/

/-- Python `str.split` on a single separator character, computed on the
character list (`"a.b".split(".") = ["a","b"]`, `"".split(".") = [""]`). -/
def splitOnChar (c : Char) : List Char → List (List Char)
  | [] => [[]]
  | x :: xs =>
    match splitOnChar c xs, decide (x = c) with
    | r, true => [] :: r
    | [], false => [[x]]
    | y :: ys, false => (x :: y) :: ys

/-- The split `modulename.split(".")` as strings. -/
def splitDots (s : String) : List String :=
  (splitOnChar '.' s.data).map (fun l => ⟨l⟩)

/-- Python `sep.join(parts)`. -/
def joinSep (sep : String) : List String → String
  | [] => ""
  | [x] => x
  | x :: xs => x ++ sep ++ joinSep sep xs

/-- The expression `os.sep.join(parts[:-1])` for `parts = modulename.split(".")`. -/
def modulePre (modulename : String) : String :=
  joinSep "/" (splitDots modulename).dropLast

/-- The expression `parts[-1]` for `parts = modulename.split(".")` (`split` never returns
an empty list, so the default is never taken). -/
def moduleBase (modulename : String) : String :=
  (splitDots modulename).getLastD ""

/-- First candidate (package.py line 165): `{parts[-1]}.py`. -/
def entryCand1 (srcdir modulename : String) : String :=
  pathJoin (pathJoin srcdir (modulePre modulename))
    (moduleBase modulename ++ ".py")

/-- Second candidate (package.py line 166): `{parts[-1]}/__version__.py`. -/
def entryCand2 (srcdir modulename : String) : String :=
  pathJoin (pathJoin srcdir (modulePre modulename))
    (pathJoin (moduleBase modulename) "__version__.py")

/-- Third candidate (package.py line 167): `{parts[-1]}/__init__.py`. -/
def entryCand3 (srcdir modulename : String) : String :=
  pathJoin (pathJoin srcdir (modulePre modulename))
    (pathJoin (moduleBase modulename) "__init__.py")

/-- The exception raised by `PythonPackageMetadata.filename` when no
candidate exists (package.py lines 175-176). -/
def entryFileError (modulename : String) : PyExc :=
  ⟨"ValueError",
   "Entry file for package \"" ++ modulename ++ "\" could not be determined"⟩

/-- The candidate loop of `PythonPackageMetadata.filename` (package.py
lines 169-176): return the first candidate that is a file, else raise. -/
def findEntryFile (fileSet : List String) (modulename : String) :
    List String → Except PyExc String
  | [] => .error (entryFileError modulename)
  | c :: rest =>
    if c ∈ fileSet then .ok c else findEntryFile fileSet modulename rest

/-- The property `PythonPackageMetadata.filename` (package.py lines 152-176), with the
set of existing files passed explicitly. -/
def metadata_filename (fileSet : List String) (srcdir modulename : String) :
    Except PyExc String :=
  findEntryFile fileSet modulename
    [entryCand1 srcdir modulename, entryCand2 srcdir modulename,
     entryCand3 srcdir modulename]

/-- C6 counterexample: when no candidate entry file exists, the code raises
a `ValueError` (package.py line 175), not an `EntryFileNotFoundError` — no
class of that name exists in the code. -/
theorem c6_entry_file_counterexample :
    metadata_filename [] "src" "mypkg" = .error (entryFileError "mypkg") ∧
    (entryFileError "mypkg").excName = "ValueError" ∧
    ("ValueError" : String) ≠ "EntryFileNotFoundError" :=
  ⟨rfl, rfl, by decide⟩

/-- C6 (amended): the entry-file lookup tries `{modulename}.py`, then
`{modulename}/__version__.py`, then `{modulename}/__init__.py` under the
source directory, in that order, returning the first existing file, and it
fails — with a `ValueError` whose message carries the module name — if and
only if none of the three exists. -/
theorem c6_entry_file_search (fileSet : List String)
    (srcdir modulename : String) :
    (∃ s₁ s₂, (entryFileError modulename).message =
      s₁ ++ modulename ++ s₂) ∧
    (entryCand1 srcdir modulename ∈ fileSet →
      metadata_filename fileSet srcdir modulename =
        .ok (entryCand1 srcdir modulename)) ∧
    (entryCand1 srcdir modulename ∉ fileSet →
     entryCand2 srcdir modulename ∈ fileSet →
      metadata_filename fileSet srcdir modulename =
        .ok (entryCand2 srcdir modulename)) ∧
    (entryCand1 srcdir modulename ∉ fileSet →
     entryCand2 srcdir modulename ∉ fileSet →
     entryCand3 srcdir modulename ∈ fileSet →
      metadata_filename fileSet srcdir modulename =
        .ok (entryCand3 srcdir modulename)) ∧
    ((∃ e, metadata_filename fileSet srcdir modulename = .error e) ↔
      (entryCand1 srcdir modulename ∉ fileSet ∧
       entryCand2 srcdir modulename ∉ fileSet ∧
       entryCand3 srcdir modulename ∉ fileSet)) ∧
    (entryCand1 srcdir modulename ∉ fileSet →
     entryCand2 srcdir modulename ∉ fileSet →
     entryCand3 srcdir modulename ∉ fileSet →
      metadata_filename fileSet srcdir modulename =
        .error (entryFileError modulename)) := by
  refine ⟨⟨"Entry file for package \"", "\" could not be determined", rfl⟩,
    ?_, ?_, ?_, ?_, ?_⟩ <;>
    by_cases h1 : entryCand1 srcdir modulename ∈ fileSet <;>
    by_cases h2 : entryCand2 srcdir modulename ∈ fileSet <;>
    by_cases h3 : entryCand3 srcdir modulename ∈ fileSet <;>
    simp [metadata_filename, findEntryFile, h1, h2, h3]

theorem c6_entry_file_search_witness :
    metadata_filename ["src/mypkg/__init__.py"] "src" "mypkg" =
      .ok "src/mypkg/__init__.py" := by
  have h := (c6_entry_file_search ["src/mypkg/__init__.py"] "src"
    "mypkg").2.2.2.1 (by decide) (by decide) (by decide)
  exact h.trans (congrArg Except.ok (by decide))

/-! ## `package_directory` (package.py lines 178-189) -/

/-- Python `os.path.split` (posixpath): the tail is everything after the
last separator; the head is everything before it, with trailing separators
stripped unless the head consists only of separators. -/
def pathSplit (p : String) : String × String :=
  let rcs := p.data.reverse
  let tl : List Char := (rcs.takeWhile (fun c => c ≠ '/')).reverse
  let hd : List Char := (rcs.dropWhile (fun c => c ≠ '/')).reverse
  let hd2 : List Char :=
    if hd.any (fun c => c ≠ '/')
    then (hd.reverse.dropWhile (fun c => c = '/')).reverse
    else hd
  (⟨hd2⟩, ⟨tl⟩)

/-- The property `PythonPackageMetadata.package_directory` (package.py lines 178-189):
split the entry filename; raise `ValueError` unless the basename is
`__init__.py` or `__version__.py`; otherwise return the dirname. -/
def package_directory (entryFilename : String) : Except PyExc String :=
  let basename := (pathSplit entryFilename).2
  if basename = "__init__.py" ∨ basename = "__version__.py" then
    .ok (pathSplit entryFilename).1
  else
    .error ⟨"ValueError", "this package is in module-only form"⟩

theorem takeWhile_append_stop (p : Char → Bool) (xs ys : List Char) (y : Char)
    (hxs : xs.all p = true) (hy : p y = false) :
    ((xs ++ y :: ys).takeWhile p) = xs := by
  induction xs with
  | nil => simp [List.takeWhile_cons, hy]
  | cons x xs ih =>
    simp only [List.all_cons, Bool.and_eq_true] at hxs
    simp [List.takeWhile_cons, hxs.1, ih hxs.2]

theorem dropWhile_append_stop (p : Char → Bool) (xs ys : List Char) (y : Char)
    (hxs : xs.all p = true) (hy : p y = false) :
    ((xs ++ y :: ys).dropWhile p) = y :: ys := by
  induction xs with
  | nil => simp [List.dropWhile_cons, hy]
  | cons x xs ih =>
    simp only [List.all_cons, Bool.and_eq_true] at hxs
    simp [List.dropWhile_cons, hxs.1, ih hxs.2]

/-- Splitting a separator-joined path recovers directory and basename, for a
nonempty directory not ending in a separator and a basename without
separators. -/
theorem pathSplit_join (d b : String) (hne : d.data ≠ [])
    (hlast : d.data.getLast? ≠ some '/')
    (hb : b.data.all (fun c => c ≠ '/') = true)
    (hb0 : strStartsWith b "/" = false) :
    pathSplit (pathJoin d b) = (d, b) := by
  obtain ⟨l, a, hd⟩ : ∃ l a, d.data = l ++ [a] := by
    rcases List.eq_nil_or_concat d.data with h | ⟨l, a, h⟩
    · exact absurd h hne
    · exact ⟨l, a, by simpa [List.concat_eq_append] using h⟩
  have ha : a ≠ '/' := by
    intro h
    apply hlast
    rw [hd, h]
    simp
  have hrevd : d.data.reverse = a :: l.reverse := by simp [hd]
  have hjoin : pathJoin d b = d ++ "/" ++ b := by
    have hdne : ¬ d = "" := by
      intro h
      rw [h] at hd
      exact absurd hd.symm (by simp)
    have hend : strEndsWith d "/" = false := by
      simp only [strEndsWith, List.isSuffixOf, hrevd]
      have : "/".data.reverse = ['/'] := rfl
      rw [this]
      simp [List.isPrefixOf]
      exact fun h => ha h.symm
    simp [pathJoin, hb0, hdne, hend]
  rw [hjoin]
  have hslash : "/".data = ['/'] := rfl
  have hdata : (d ++ "/" ++ b).data = d.data ++ '/' :: b.data := by
    rw [str_data_append, str_data_append, List.append_assoc, hslash]
    rfl
  have hrev : (d ++ "/" ++ b).data.reverse =
      b.data.reverse ++ '/' :: d.data.reverse := by
    rw [hdata]
    simp
  have hball : b.data.reverse.all (fun c => c ≠ '/') = true := by
    simpa [List.all_reverse] using hb
  simp only [pathSplit, hrev]
  rw [takeWhile_append_stop _ _ _ _ hball (by simp),
      dropWhile_append_stop _ _ _ _ hball (by simp)]
  have hany : (('/' :: d.data.reverse).reverse).any (fun c => c ≠ '/') = true := by
    simp only [List.any_reverse, List.any_cons]
    simp [hd, ha]
  rw [if_pos hany]
  have hstrip : ((('/' :: d.data.reverse).reverse).reverse.dropWhile
      (fun c => c = '/')).reverse = d.data := by
    simp only [List.reverse_reverse, List.dropWhile_cons]
    simp [hrevd, List.dropWhile_cons, ha, hd]
  rw [Prod.mk.injEq]
  constructor
  · exact str_ext (by simpa using hstrip)
  · exact str_ext (by simp)

/-- C9: for an entry file located by the metadata lookup,
`package_directory` raises a `ValueError` exactly when the entry file's
basename is neither `__init__.py` nor `__version__.py` (the module-only
form), and otherwise returns the directory containing the entry file (the
dirname of the split; for a well-formed `dir/basename` path this is exactly
`dir`). -/
theorem c9_package_directory (f : String) :
    ((∃ e, package_directory f = .error e) ↔
      ((pathSplit f).2 ≠ "__init__.py" ∧ (pathSplit f).2 ≠ "__version__.py")) ∧
    ((pathSplit f).2 = "__init__.py" ∨ (pathSplit f).2 = "__version__.py" →
      package_directory f = .ok (pathSplit f).1) ∧
    (∀ e, package_directory f = .error e →
      e = ⟨"ValueError", "this package is in module-only form"⟩) ∧
    (∀ d : String, d.data ≠ [] → d.data.getLast? ≠ some '/' →
      package_directory (pathJoin d "__init__.py") = .ok d ∧
      package_directory (pathJoin d "__version__.py") = .ok d) := by
  refine ⟨?_, ?_, ?_, ?_⟩
  · by_cases h : (pathSplit f).2 = "__init__.py" ∨
        (pathSplit f).2 = "__version__.py"
    · simp only [package_directory, if_pos h]
      constructor
      · rintro ⟨e, he⟩
        exact absurd he (by simp)
      · intro hne
        exact absurd h (by tauto)
    · simp only [package_directory, if_neg h]
      constructor
      · intro _
        exact ⟨fun h1 => h (Or.inl h1), fun h2 => h (Or.inr h2)⟩
      · intro _
        exact ⟨_, rfl⟩
  · intro h
    simp [package_directory, h]
  · intro e he
    by_cases h : (pathSplit f).2 = "__init__.py" ∨
        (pathSplit f).2 = "__version__.py"
    · simp only [package_directory, if_pos h] at he
      exact absurd he (by simp)
    · simp only [package_directory, if_neg h] at he
      simp only [Except.error.injEq] at he
      exact he.symm
  · intro d h1 h2
    constructor
    · have hs := pathSplit_join d "__init__.py" h1 h2 (by decide) (by decide)
      simp [package_directory, hs]
    · have hs := pathSplit_join d "__version__.py" h1 h2 (by decide) (by decide)
      simp [package_directory, hs]

theorem c9_package_directory_witness :
    package_directory "src/mypkg/__init__.py" = .ok "src/mypkg" := by
  have h := ((c9_package_directory "src/mypkg/__init__.py").2.2.2 "src/mypkg"
    (by decide) (by decide)).1
  have hp : pathJoin "src/mypkg" "__init__.py" = "src/mypkg/__init__.py" := by
    decide
  rw [hp] at h
  exact h

/-! ## `_get_file_in_directory` (package.py lines 37-54) and its callers -/

/-- Lexicographic code-point comparison of character lists (Python string
ordering). -/
def charListLt : List Char → List Char → Bool
  | [], [] => false
  | [], _ :: _ => true
  | _ :: _, [] => false
  | a :: as, b :: bs =>
    if a.toNat < b.toNat then true
    else if b.toNat < a.toNat then false
    else charListLt as bs

/-- Python `<` on strings. -/
def strLt (a b : String) : Bool := charListLt a.data b.data

/-- Insertion step of `sorted()` (ascending lexicographic order). -/
def insertSorted (s : String) : List String → List String
  | [] => [s]
  | x :: xs => if strLt x s then x :: insertSorted s xs else s :: x :: xs

/-- Python `sorted(os.listdir(directory))`, with the raw listing passed
explicitly. -/
def sortNames : List String → List String
  | [] => []
  | x :: xs => insertSorted x (sortNames xs)

/-- The loop of `_get_file_in_directory` (package.py lines 43-54): iterate
the sorted listing; at the first name in `preferred`, return it joined with
the directory; otherwise collect names starting with the given text and, at
the end, return the first collected name (bare) or `None`. -/
def gfidLoop (directory pfx : String) (preferred : List String) :
    List String → List String → Option String
  | [], choices => choices.head?
  | n :: rest, choices =>
    if n ∈ preferred then some (pathJoin directory n)
    else gfidLoop directory pfx preferred rest
      (if strStartsWith n pfx then choices ++ [n] else choices)

/-- The helper `_get_file_in_directory(directory, prefix, preferred)`, with the
directory listing passed explicitly. -/
def get_file_in_directory (directory : String) (listing : List String)
    (pfx : String) (preferred : List String) : Option String :=
  gfidLoop directory pfx preferred (sortNames listing) []

/-- The same lookup written the way the spec describes it: the first name of
the sorted listing that is in the preferred list — regardless of its
position inside the preferred list — wins and is returned joined with the
directory; only when no preferred name occurs anywhere in the listing is the
first prefix-match returned (bare), and `None` when there is none. -/
def get_file_in_directory_spec (directory : String) (listing : List String)
    (pfx : String) (preferred : List String) : Option String :=
  match (sortNames listing).find? (fun n => decide (n ∈ preferred)) with
  | some n => some (pathJoin directory n)
  | none => (sortNames listing).find? (fun n => strStartsWith n pfx)

theorem filter_head_eq_find (p : String → Bool) (l : List String) :
    (l.filter p).head? = l.find? p := by
  induction l with
  | nil => rfl
  | cons x xs ih => by_cases h : p x <;> simp [List.filter_cons, List.find?_cons, h, ih]

theorem gfidLoop_eq (directory pfx : String) (preferred : List String) :
    ∀ (names choices : List String),
      gfidLoop directory pfx preferred names choices =
        match names.find? (fun n => decide (n ∈ preferred)) with
        | some n => some (pathJoin directory n)
        | none =>
          (choices ++ names.filter (fun n => strStartsWith n pfx)).head? := by
  intro names
  induction names with
  | nil => intro choices; simp [gfidLoop]
  | cons n rest ih =>
    intro choices
    by_cases hp : n ∈ preferred
    · simp [gfidLoop, hp, List.find?_cons]
    · rw [gfidLoop]
      simp only [hp, if_false]
      rw [ih]
      by_cases hs : strStartsWith n pfx
      · cases hf : rest.find? (fun n => decide (n ∈ preferred)) <;>
          simp [List.find?_cons, List.filter_cons, hp, hs, hf, List.append_assoc]
      · cases hf : rest.find? (fun n => decide (n ∈ preferred)) <;>
          simp [List.find?_cons, List.filter_cons, hp, hs, hf]

theorem mem_insertSorted (s a : String) (l : List String) :
    a ∈ insertSorted s l ↔ a = s ∨ a ∈ l := by
  induction l with
  | nil => simp [insertSorted]
  | cons x xs ih =>
    by_cases h : strLt x s <;> simp [insertSorted, h, ih] <;> tauto

theorem mem_sortNames (a : String) (l : List String) :
    a ∈ sortNames l ↔ a ∈ l := by
  induction l with
  | nil => simp [sortNames]
  | cons x xs ih => simp [sortNames, mem_insertSorted, ih]

/-- C8: `_get_file_in_directory` equals its spec-worded description — it
iterates the sorted listing and returns at the first name found in the
preferred list (whatever that name's position inside the preferred list);
only if no preferred name occurs anywhere in the listing does it return the
first (in sorted order) name starting with the prefix, and `None` if there
is none. -/
theorem c8_first_preferred_wins (directory : String) (listing : List String)
    (pfx : String) (preferred : List String) :
    get_file_in_directory directory listing pfx preferred =
      get_file_in_directory_spec directory listing pfx preferred := by
  rw [get_file_in_directory, get_file_in_directory_spec, gfidLoop_eq]
  cases hf : (sortNames listing).find? (fun n => decide (n ∈ preferred)) with
  | some n => simp
  | none => simp [filter_head_eq_find]

/-- The preferred README names of `PackageModel.get_readme`
(package.py line 127). -/
def readmePreferred : List String :=
  ["README.md", "README.rst", "README.txt", "README"]

/-- The preferred LICENSE names of `PackageModel.get_license`
(package.py line 137). -/
def licensePreferred : List String :=
  ["LICENSE", "LICENSE.txt", "LICENSE.rst", "LICENSE.md"]

/-- The method `PackageModel.get_license` (package.py lines 129-137), with the package
directory and its listing passed explicitly. -/
def get_license (packageDir : String) (listing : List String) :
    Option String :=
  get_file_in_directory packageDir listing "LICENSE." licensePreferred

/-- The method `PackageModel.get_readme` (package.py lines 114-127).  When
`data.readme` is set, line 122 reads `self.readme`, an attribute that
`PackageModel` does not define (the field lives on `self.data`), so that
branch raises `AttributeError`; otherwise the lookup is delegated to
`_get_file_in_directory`. -/
def get_readme (dataReadme : Option String) (packageDir : String)
    (listing : List String) : Except PyExc (Option String) :=
  match dataReadme with
  | some _ => .error ⟨"AttributeError", "readme"⟩
  | none =>
    .ok (get_file_in_directory packageDir listing "README." readmePreferred)

theorem pathJoin_ne (d n : String) (h1 : d.data ≠ [])
    (h0 : strStartsWith n "/" = false) : pathJoin d n ≠ n := by
  intro h
  have hdne : ¬ d = "" := fun hh => h1 (by rw [hh])
  by_cases he : strEndsWith d "/"
  · have hj : pathJoin d n = d ++ n := by simp [pathJoin, h0, he]
    rw [hj] at h
    have hl := congrArg (fun s => s.data.length) h
    simp only [str_data_append, List.length_append] at hl
    have : d.data.length = 0 := by omega
    exact h1 (List.length_eq_zero.mp this)
  · have hj : pathJoin d n = d ++ "/" ++ n := by
      simp [pathJoin, h0, hdne, he]
    rw [hj] at h
    have hl := congrArg (fun s => s.data.length) h
    have hslash : "/".data = ['/'] := rfl
    simp only [str_data_append, hslash, List.length_append,
      List.length_singleton] at hl
    omega

/-- C10: when no preferred name occurs in the listing but some name starts
with the prefix, `_get_file_in_directory` returns the bare filename (a
member of the listing, not joined with the directory — in particular not
equal to the joined path for a nonempty directory), whereas when a preferred
name is found it returns the directory-joined path; `get_readme` (with no
explicit readme configured) and `get_license` inherit exactly this
behaviour, so they produce a directory-qualified path only in the
preferred-name case. -/
theorem c10_bare_fallback_path (d : String) (l : List String) :
    (∀ n, (sortNames l).find? (fun m => decide (m ∈ licensePreferred)) = some n →
      get_license d l = some (pathJoin d n)) ∧
    ((sortNames l).find? (fun m => decide (m ∈ licensePreferred)) = none →
      ∀ n, (sortNames l).find? (fun m => strStartsWith m "LICENSE.") = some n →
        get_license d l = some n ∧ n ∈ l ∧
        (d.data ≠ [] → strStartsWith n "/" = false →
          get_license d l ≠ some (pathJoin d n))) ∧
    (∀ n, (sortNames l).find? (fun m => decide (m ∈ readmePreferred)) = some n →
      get_readme none d l = .ok (some (pathJoin d n))) ∧
    ((sortNames l).find? (fun m => decide (m ∈ readmePreferred)) = none →
      ∀ n, (sortNames l).find? (fun m => strStartsWith m "README.") = some n →
        get_readme none d l = .ok (some n) ∧ n ∈ l) := by
  have hlic : ∀ hf, get_license d l = hf →
      get_file_in_directory d l "LICENSE." licensePreferred = hf :=
    fun _ h => h
  refine ⟨?_, ?_, ?_, ?_⟩
  · intro n hn
    rw [get_license, get_file_in_directory, gfidLoop_eq, hn]
  · intro hnone n hn
    have hres : get_license d l = some n := by
      rw [get_license, get_file_in_directory, gfidLoop_eq, hnone]
      simpa [filter_head_eq_find] using hn
    have hmem : n ∈ l := by
      rw [← mem_sortNames]
      exact List.mem_of_find?_eq_some hn
    refine ⟨hres, hmem, ?_⟩
    intro h1 h0
    rw [hres]
    intro hcontra
    simp only [Option.some.injEq] at hcontra
    exact pathJoin_ne d n h1 h0 hcontra.symm
  · intro n hn
    rw [get_readme]
    rw [get_file_in_directory, gfidLoop_eq, hn]
  · intro hnone n hn
    constructor
    · rw [get_readme]
      rw [get_file_in_directory, gfidLoop_eq, hnone]
      simp only [Except.ok.injEq]
      simpa [filter_head_eq_find] using hn
    · rw [← mem_sortNames]
      exact List.mem_of_find?_eq_some hn

theorem c10_bare_fallback_path_witness :
    get_license "pkg" ["LICENSE.custom"] = some "LICENSE.custom" ∧
    get_license "pkg" ["LICENSE.custom", "LICENSE"] =
      some (pathJoin "pkg" "LICENSE") := by
  constructor
  · exact ((c10_bare_fallback_path "pkg" ["LICENSE.custom"]).2.1
      (by decide) "LICENSE.custom" (by decide)).1
  · exact (c10_bare_fallback_path "pkg" ["LICENSE.custom", "LICENSE"]).1
      "LICENSE" (by decide)
